import Mathlib

/-!
Verification of the whiteboard board state machine and its synchronization
client, as implemented in the React sources (store/BoardProvider reducer and
components/Board).  The reducer is embedded as a pure function from a board
state and an action to an optional board state: cases in which the JavaScript
code would throw (indexing into an empty element list, moving a TEXT element)
return none.  The helpers createElement and isPointNearElement live in
utils/element, which is not part of the sources at hand: createElement is
modelled from the specification, and the hit test enters the reducer as an
explicit functional parameter.
-/

/-- Tool identifiers, from the TOOL_ITEMS constants. -/
inductive ToolItem
  | LINE
  | RECTANGLE
  | CIRCLE
  | ARROW
  | BRUSH
  | TEXT
  | ERASER
  deriving DecidableEq, Repr

/-- Interaction modes, from the TOOL_ACTION_TYPES constants. -/
inductive ToolActionType
  | NONE
  | DRAWING
  | ERASING
  | WRITING
  deriving DecidableEq, Repr

/-- One sampled point of a brush stroke. -/
structure Point where
  x : Int
  y : Int
  deriving DecidableEq, Repr

/-- One drawing primitive.  The JavaScript element object carries the fields
relevant to its type; here a single flat record holds all stored attributes
(the derived renderer descriptor roughEle is recomputed from geometry and
style and is not part of the stored identity). -/
structure DrawingElement where
  index : Nat
  type : ToolItem
  x1 : Int
  y1 : Int
  x2 : Int
  y2 : Int
  points : List Point
  text : String
  stroke : String
  fill : Option String
  size : Int
  deriving DecidableEq, Repr

/-- Modelled from the spec: createElement of utils/element is not among the
sources at hand.  Per the data model, an element of one of the six drawable
types is created with the given index, anchor and endpoint, and style; a
brush element starts its point list at the anchor, a text element starts with
an empty payload.  ERASER is not an element type, so creation fails for it. -/
def createElement (index : Nat) (x1 y1 x2 y2 : Int) (tool : ToolItem)
    (stroke : String) (fill : Option String) (size : Int) : Option DrawingElement :=
  if tool = ToolItem.ERASER then none
  else some {
    index := index
    type := tool
    x1 := x1
    y1 := y1
    x2 := x2
    y2 := y2
    points := if tool = ToolItem.BRUSH then [⟨x1, y1⟩] else []
    text := ""
    stroke := stroke
    fill := fill
    size := size }

/-- The whole board state managed by the reducer (initialBoardState shape). -/
structure BoardState where
  activeToolItem : ToolItem
  toolActionType : ToolActionType
  elements : List DrawingElement
  history : List (List DrawingElement)
  index : Nat
  canvasId : String
  isUserLoggedIn : Bool
  deriving DecidableEq, Repr

/-- Actions of the board reducer (BOARD_ACTIONS). -/
inductive BoardAction
  | CHANGE_TOOL (tool : ToolItem)
  | CHANGE_ACTION_TYPE (actionType : ToolActionType)
  | DRAW_DOWN (clientX clientY : Int) (stroke : String) (fill : Option String) (size : Int)
  | DRAW_MOVE (clientX clientY : Int)
  | DRAW_UP
  | ERASE (clientX clientY : Int)
  | CHANGE_TEXT (text : String)
  | UNDO
  | REDO
  | SET_INITIAL_ELEMENTS (elements : List DrawingElement)
  | SET_CANVAS_ID (canvasId : String)
  | SET_CANVAS_ELEMENTS (elements : List DrawingElement)
  | SET_HISTORY (elements : List DrawingElement)
  | SET_USER_LOGIN_STATUS (isUserLoggedIn : Bool)
  deriving DecidableEq, Repr

/-- The board reducer, embedded case by case from boardReducer in
store/BoardProvider.  The hit test isNear stands for isPointNearElement of
utils/element.  A case in which the JavaScript code would throw (DRAW_MOVE
with no last element or on a TEXT element, CHANGE_TEXT with no last element)
yields none.  Undo reads history at index - 1 and redo at index + 1; an
out-of-range read, which in JavaScript would silently produce undefined
elements, also yields none. -/
def boardReducer (isNear : DrawingElement → Int → Int → Bool)
    (s : BoardState) : BoardAction → Option BoardState
  | BoardAction.CHANGE_TOOL tool =>
      some { s with activeToolItem := tool }
  | BoardAction.CHANGE_ACTION_TYPE actionType =>
      some { s with toolActionType := actionType }
  | BoardAction.DRAW_DOWN clientX clientY stroke fill size =>
      match createElement s.elements.length clientX clientY clientX clientY
          s.activeToolItem stroke fill size with
      | none => none
      | some newElement =>
          some { s with
            toolActionType :=
              if s.activeToolItem = ToolItem.TEXT then ToolActionType.WRITING
              else ToolActionType.DRAWING
            elements := s.elements ++ [newElement] }
  | BoardAction.DRAW_MOVE clientX clientY =>
      match s.elements.getLast? with
      | none => none
      | some e =>
          match e.type with
          | ToolItem.LINE | ToolItem.RECTANGLE | ToolItem.CIRCLE | ToolItem.ARROW =>
              match createElement (s.elements.length - 1) e.x1 e.y1 clientX clientY
                  s.activeToolItem e.stroke e.fill e.size with
              | none => none
              | some newElement =>
                  some { s with elements := s.elements.set (s.elements.length - 1) newElement }
          | ToolItem.BRUSH =>
              let extended := { e with points := e.points ++ [⟨clientX, clientY⟩] }
              some { s with elements := s.elements.set (s.elements.length - 1) extended }
          | _ => none
  | BoardAction.DRAW_UP =>
      some { s with
        history := s.history.take (s.index + 1) ++ [s.elements]
        index := s.index + 1 }
  | BoardAction.ERASE clientX clientY =>
      let newElements := s.elements.filter fun e => ! isNear e clientX clientY
      some { s with
        elements := newElements
        history := s.history.take (s.index + 1) ++ [newElements]
        index := s.index + 1 }
  | BoardAction.CHANGE_TEXT text =>
      match s.elements.getLast? with
      | none => none
      | some e =>
          let newElements := s.elements.set (s.elements.length - 1) ({ e with text := text })
          some { s with
            toolActionType := ToolActionType.NONE
            elements := newElements
            history := s.history.take (s.index + 1) ++ [newElements]
            index := s.index + 1 }
  | BoardAction.UNDO =>
      if s.index = 0 then some s
      else
        match s.history.get? (s.index - 1) with
        | none => none
        | some prev => some { s with elements := prev, index := s.index - 1 }
  | BoardAction.REDO =>
      if s.history.length - 1 ≤ s.index then some s
      else
        match s.history.get? (s.index + 1) with
        | none => none
        | some next => some { s with elements := next, index := s.index + 1 }
  | BoardAction.SET_INITIAL_ELEMENTS elements =>
      some { s with elements := elements, history := [elements] }
  | BoardAction.SET_CANVAS_ID canvasId =>
      some { s with canvasId := canvasId }
  | BoardAction.SET_CANVAS_ELEMENTS elements =>
      some { s with elements := elements }
  | BoardAction.SET_HISTORY elements =>
      some { s with history := [elements] }
  | BoardAction.SET_USER_LOGIN_STATUS isUserLoggedIn =>
      some { s with isUserLoggedIn := isUserLoggedIn }

/-- The initial board state; the login flag is read from local storage at
module load, so it enters as a parameter. -/
def initialBoardState (isUserLoggedIn : Bool) : BoardState where
  activeToolItem := ToolItem.BRUSH
  toolActionType := ToolActionType.NONE
  elements := []
  history := [[]]
  index := 0
  canvasId := ""
  isUserLoggedIn := isUserLoggedIn

/-- Sequential application of a list of actions, failing as soon as one
application fails. -/
def applyActions (isNear : DrawingElement → Int → Int → Bool)
    (s : BoardState) : List BoardAction → Option BoardState
  | [] => some s
  | a :: rest =>
      match boardReducer isNear s a with
      | none => none
      | some t => applyActions isNear t rest

/-- Actions that commit a new history entry: draw-up, erase, text-commit. -/
def isCommittingAction : BoardAction → Bool
  | BoardAction.DRAW_UP => true
  | BoardAction.ERASE _ _ => true
  | BoardAction.CHANGE_TEXT _ => true
  | _ => false

/-- Undo and redo actions. -/
def isUndoRedoAction : BoardAction → Bool
  | BoardAction.UNDO => true
  | BoardAction.REDO => true
  | _ => false

/-- Actions that preserve the index bound: everything except SET_HISTORY and
SET_INITIAL_ELEMENTS, which overwrite history without resetting index. -/
def isIndexSafeAction : BoardAction → Bool
  | BoardAction.SET_HISTORY _ => false
  | BoardAction.SET_INITIAL_ELEMENTS _ => false
  | _ => true

/-- The five tools whose gestures draw shapes or strokes: every tool other
than ERASER and TEXT. -/
def isShapeOrBrush : ToolItem → Bool
  | ToolItem.LINE => true
  | ToolItem.RECTANGLE => true
  | ToolItem.CIRCLE => true
  | ToolItem.ARROW => true
  | ToolItem.BRUSH => true
  | _ => false

/-- A trivial hit test used to instantiate concrete runs. -/
def isNearNone : DrawingElement → Int → Int → Bool := fun _ _ _ => false

/-- Per-tool style options, as read from the toolbox context at mouse-down. -/
structure ToolboxEntry where
  stroke : String
  fill : Option String
  size : Int
  deriving DecidableEq, Repr

/-- Mouse-down handler of the provider (boardMouseDownHandler): while writing
nothing is dispatched; with the eraser active the action type switches to
ERASING; otherwise a DRAW_DOWN is dispatched with the style of the active
tool. -/
def boardMouseDownHandler (isNear : DrawingElement → Int → Int → Bool)
    (toolbox : ToolItem → ToolboxEntry) (s : BoardState)
    (clientX clientY : Int) : Option BoardState :=
  if s.toolActionType = ToolActionType.WRITING then some s
  else if s.activeToolItem = ToolItem.ERASER then
    boardReducer isNear s (BoardAction.CHANGE_ACTION_TYPE ToolActionType.ERASING)
  else
    boardReducer isNear s (BoardAction.DRAW_DOWN clientX clientY
      (toolbox s.activeToolItem).stroke (toolbox s.activeToolItem).fill
      (toolbox s.activeToolItem).size)

/-- Mouse-move handler of the provider (boardMouseMoveHandler): while writing
nothing is dispatched; while drawing a DRAW_MOVE is dispatched, while erasing
an ERASE. -/
def boardMouseMoveHandler (isNear : DrawingElement → Int → Int → Bool)
    (s : BoardState) (clientX clientY : Int) : Option BoardState :=
  if s.toolActionType = ToolActionType.WRITING then some s
  else if s.toolActionType = ToolActionType.DRAWING then
    boardReducer isNear s (BoardAction.DRAW_MOVE clientX clientY)
  else if s.toolActionType = ToolActionType.ERASING then
    boardReducer isNear s (BoardAction.ERASE clientX clientY)
  else some s

/-- Mouse-up handler of the provider (boardMouseUpHandler): while writing
nothing is dispatched; while drawing a DRAW_UP is dispatched, and in every
non-writing mode the action type is then reset to NONE.  The mode checks read
the state as it stood when the handler ran; the two dispatches are applied in
order. -/
def boardMouseUpHandler (isNear : DrawingElement → Int → Int → Bool)
    (s : BoardState) : Option BoardState :=
  if s.toolActionType = ToolActionType.WRITING then some s
  else if s.toolActionType = ToolActionType.DRAWING then
    match boardReducer isNear s BoardAction.DRAW_UP with
    | none => none
    | some t => boardReducer isNear t (BoardAction.CHANGE_ACTION_TYPE ToolActionType.NONE)
  else boardReducer isNear s (BoardAction.CHANGE_ACTION_TYPE ToolActionType.NONE)

/-- State of one Board component instance: the board state from context, the
isAuthorized flag, and the canvas id prop used to tag outbound messages. -/
structure ClientState where
  board : BoardState
  isAuthorized : Bool
  id : String
  deriving DecidableEq, Repr

/-- Messages the client emits on the real-time channel. -/
inductive OutboundMessage
  | drawingUpdate (canvasId : String) (elements : List DrawingElement)
  deriving DecidableEq, Repr

/-- Events the Board component reacts to: the three inbound channel messages
and the three local pointer events. -/
inductive ClientEvent
  | receiveDrawingUpdate (elements : List DrawingElement)
  | loadCanvas (elements : List DrawingElement)
  | unauthorized (message : String)
  | mouseDown (clientX clientY : Int)
  | mouseMove (clientX clientY : Int)
  | mouseUp
  deriving DecidableEq, Repr

/-- One step of the Board component (socket listeners and mouse handlers in
components/Board).  Inbound snapshots are admitted through setElements
unconditionally; an unauthorized message clears isAuthorized; the local mouse
handlers return early, with no dispatch and no emission, when isAuthorized is
false.  The drawingUpdate emissions on mouse-move and mouse-up carry the
elements value captured at the last render, that is the elements of the state
before the dispatches of this very event take effect, because a dispatch does
not update the surrounding closure. -/
def clientStep (isNear : DrawingElement → Int → Int → Bool)
    (toolbox : ToolItem → ToolboxEntry) (s : ClientState) :
    ClientEvent → Option (ClientState × List OutboundMessage)
  | ClientEvent.receiveDrawingUpdate elements =>
      match boardReducer isNear s.board (BoardAction.SET_CANVAS_ELEMENTS elements) with
      | none => none
      | some b => some ({ s with board := b }, [])
  | ClientEvent.loadCanvas elements =>
      match boardReducer isNear s.board (BoardAction.SET_CANVAS_ELEMENTS elements) with
      | none => none
      | some b => some ({ s with board := b }, [])
  | ClientEvent.unauthorized _ =>
      some ({ s with isAuthorized := false }, [])
  | ClientEvent.mouseDown clientX clientY =>
      if s.isAuthorized then
        match boardMouseDownHandler isNear toolbox s.board clientX clientY with
        | none => none
        | some b => some ({ s with board := b }, [])
      else some (s, [])
  | ClientEvent.mouseMove clientX clientY =>
      if s.isAuthorized then
        match boardMouseMoveHandler isNear s.board clientX clientY with
        | none => none
        | some b =>
            some ({ s with board := b },
              [OutboundMessage.drawingUpdate s.id s.board.elements])
      else some (s, [])
  | ClientEvent.mouseUp =>
      if s.isAuthorized then
        match boardMouseUpHandler isNear s.board with
        | none => none
        | some b =>
            some ({ s with board := b },
              [OutboundMessage.drawingUpdate s.id s.board.elements])
      else some (s, [])

/-- Sequential processing of a list of client events, collecting all emitted
messages and failing as soon as one step fails. -/
def runClient (isNear : DrawingElement → Int → Int → Bool)
    (toolbox : ToolItem → ToolboxEntry) (s : ClientState) :
    List ClientEvent → Option (ClientState × List OutboundMessage)
  | [] => some (s, [])
  | e :: rest =>
      match clientStep isNear toolbox s e with
      | none => none
      | some (t, out) =>
          match runClient isNear toolbox t rest with
          | none => none
          | some (u, out2) => some (u, out ++ out2)

/-- A constant toolbox used to instantiate concrete runs. -/
def toolboxDefault : ToolItem → ToolboxEntry := fun _ => ⟨"black", none, 1⟩

/-- A sample brush element used in concrete runs. -/
def sampleElement : DrawingElement where
  index := 0
  type := ToolItem.BRUSH
  x1 := 0
  y1 := 0
  x2 := 0
  y2 := 0
  points := [⟨0, 0⟩]
  text := ""
  stroke := "black"
  fill := none
  size := 1

/-- The state reached from the initial state by one DRAW_UP. -/
def drawUpState : BoardState :=
  { initialBoardState false with history := [[], []], index := 1 }

/-- The state reached from the initial state by DRAW_UP and then
SET_HISTORY with the empty collection: its index is 1 while its history has
length 1. -/
def c1BadState : BoardState :=
  { initialBoardState false with history := [[]], index := 1 }

/-- A state with two history entries and cursor on the second, as after one
committed gesture. -/
def twoEntryState : BoardState :=
  { initialBoardState false with
      elements := [sampleElement]
      history := [[], [sampleElement]]
      index := 1 }

/-- A state with two history entries and cursor on the first, as after one
committed gesture followed by one undo. -/
def twoEntryStateAtZero : BoardState :=
  { initialBoardState false with history := [[], [sampleElement]], index := 0 }

/-- The sample brush element with one more sampled point, as produced by a
DRAW_MOVE to (5, 5). -/
def sampleElementMoved : DrawingElement :=
  { sampleElement with points := [⟨0, 0⟩, ⟨5, 5⟩] }

/-- A client mid-gesture: authorized, drawing, one brush element on the
board. -/
def drawingClient : ClientState where
  board :=
    { initialBoardState false with
        elements := [sampleElement]
        toolActionType := ToolActionType.DRAWING
        canvasId := "abc" }
  isAuthorized := true
  id := "abc"

/-- A client that has received an unauthorized message. -/
def unauthorizedClient : ClientState where
  board := initialBoardState false
  isAuthorized := false
  id := "abc"

/-- The client state drawingClient after processing a mouse move to (5, 5). -/
def c9AfterState : ClientState :=
  { drawingClient with
      board := { drawingClient.board with elements := [sampleElementMoved] } }

/-- Every action other than SET_HISTORY and SET_INITIAL_ELEMENTS preserves
the bound index < history.length on success. -/
theorem boardReducer_index_lt (isNear : DrawingElement → Int → Int → Bool)
    (s t : BoardState) (a : BoardAction)
    (ha : isIndexSafeAction a = true) (hs : s.index < s.history.length)
    (h : boardReducer isNear s a = some t) : t.index < t.history.length := by
  cases a with
  | CHANGE_TOOL tool =>
      simp only [boardReducer] at h
      cases h
      simpa using hs
  | CHANGE_ACTION_TYPE actionType =>
      simp only [boardReducer] at h
      cases h
      simpa using hs
  | DRAW_DOWN cx cy st f sz =>
      simp only [boardReducer] at h
      split at h
      · simp at h
      · cases h
        simpa using hs
  | DRAW_MOVE cx cy =>
      simp only [boardReducer] at h
      split at h
      · simp at h
      · split at h
        · split at h
          · simp at h
          · cases h; simpa using hs
        · split at h
          · simp at h
          · cases h; simpa using hs
        · split at h
          · simp at h
          · cases h; simpa using hs
        · split at h
          · simp at h
          · cases h; simpa using hs
        · cases h; simpa using hs
        · simp at h
  | DRAW_UP =>
      simp only [boardReducer] at h
      cases h
      simp only [List.length_append, List.length_take, List.length_cons, List.length_nil]
      omega
  | ERASE cx cy =>
      simp only [boardReducer] at h
      cases h
      simp only [List.length_append, List.length_take, List.length_cons, List.length_nil]
      omega
  | CHANGE_TEXT txt =>
      simp only [boardReducer] at h
      split at h
      · simp at h
      · cases h
        simp only [List.length_append, List.length_take, List.length_cons, List.length_nil]
        omega
  | UNDO =>
      simp only [boardReducer] at h
      split at h
      · cases h
        exact hs
      · split at h
        · simp at h
        · cases h
          simp only []
          omega
  | REDO =>
      simp only [boardReducer] at h
      split at h
      · cases h
        exact hs
      · split at h
        · simp at h
        · cases h
          simp only []
          omega
  | SET_INITIAL_ELEMENTS E => simp [isIndexSafeAction] at ha
  | SET_CANVAS_ID cid =>
      simp only [boardReducer] at h
      cases h
      simpa using hs
  | SET_CANVAS_ELEMENTS E =>
      simp only [boardReducer] at h
      cases h
      simpa using hs
  | SET_HISTORY E => simp [isIndexSafeAction] at ha
  | SET_USER_LOGIN_STATUS b =>
      simp only [boardReducer] at h
      cases h
      simpa using hs

/-- The bound index < history.length is preserved along any sequence of
index-safe actions. -/
theorem applyActions_index_lt (isNear : DrawingElement → Int → Int → Bool)
    (acts : List BoardAction) :
    ∀ s t : BoardState, acts.all isIndexSafeAction = true →
    s.index < s.history.length →
    applyActions isNear s acts = some t → t.index < t.history.length := by
  induction acts with
  | nil =>
      intro s t _ hs h
      simp only [applyActions] at h
      cases h
      exact hs
  | cons a rest ih =>
      intro s t hall hs h
      simp only [List.all_cons, Bool.and_eq_true] at hall
      simp only [applyActions] at h
      cases hred : boardReducer isNear s a with
      | none => rw [hred] at h; simp at h
      | some u =>
          rw [hred] at h
          exact ih u t hall.2 (boardReducer_index_lt isNear s u a hall.1 hs hred) h

/-- C1 counterexample: from the initial state, DRAW_UP followed by
SET_HISTORY of the empty collection succeeds and yields a state whose index
is 1 while its history has length 1, so the claimed invariant
index < history.length fails once SET_HISTORY is admitted. -/
theorem c1_counterexample :
    applyActions isNearNone (initialBoardState false)
      [BoardAction.DRAW_UP, BoardAction.SET_HISTORY []] = some c1BadState ∧
    ¬ c1BadState.index < c1BadState.history.length := by
  constructor
  · rfl
  · decide

/-- C1 (amended): starting from the initial board state, after every
sequence of reducer actions among the listed ones that contains no
SET_HISTORY, the resulting state satisfies index < history.length (the lower
bound 0 ≤ index holds unconditionally since the cursor is a natural number
and every decrement is guarded). -/
theorem c1_index_bounds_invariant (isNear : DrawingElement → Int → Int → Bool)
    (loggedIn : Bool) (acts : List BoardAction) (t : BoardState)
    (hall : acts.all isIndexSafeAction = true)
    (h : applyActions isNear (initialBoardState loggedIn) acts = some t) :
    t.index < t.history.length :=
  applyActions_index_lt isNear acts (initialBoardState loggedIn) t hall
    (by simp [initialBoardState]) h

/-- C1 witness: the amended invariant instantiated on the one-action
sequence DRAW_UP. -/
theorem c1_index_bounds_invariant_witness :
    ([BoardAction.DRAW_UP].all isIndexSafeAction = true) ∧
    applyActions isNearNone (initialBoardState false) [BoardAction.DRAW_UP] =
      some drawUpState ∧
    drawUpState.index < drawUpState.history.length :=
  ⟨by decide, rfl,
    c1_index_bounds_invariant isNearNone false [BoardAction.DRAW_UP]
      drawUpState (by decide) rfl⟩

/-- C2 counterexample: on a state with cursor 1 (reached from the initial
state by one DRAW_UP), SET_HISTORY of the empty collection yields a state
whose history is the single-entry list but whose index is still 1, not 0 as
claimed. -/
theorem c2_counterexample :
    boardReducer isNearNone drawUpState (BoardAction.SET_HISTORY []) =
      some { drawUpState with history := [[]] } ∧
    ({ drawUpState with history := [[]] } : BoardState).index ≠ 0 := by
  constructor
  · rfl
  · decide

/-- C2 (amended): for every state s and element collection E, SET_HISTORY E
yields the state whose history is the one-entry list holding E and in which
every other field of s, the cursor index included, is unchanged. -/
theorem c2_set_history_effect (isNear : DrawingElement → Int → Int → Bool)
    (s : BoardState) (E : List DrawingElement) :
    boardReducer isNear s (BoardAction.SET_HISTORY E) =
      some { s with history := [E] } :=
  rfl

/-- C3 counterexample: applying SET_HISTORY with a one-element collection to
the initial state and then reading the elements field yields the empty
collection, not the collection that was passed in. -/
theorem c3_counterexample :
    (boardReducer isNearNone (initialBoardState false)
        (BoardAction.SET_HISTORY [sampleElement])).map BoardState.elements =
      some [] ∧
    ([] : List DrawingElement) ≠ [sampleElement] := by
  constructor
  · rfl
  · decide

/-- C3 (amended): applying SET_HISTORY E and then reading the elements field
yields the elements the state already held, unchanged; E lands only in the
history field, as its single entry. -/
theorem c3_set_history_round_trip (isNear : DrawingElement → Int → Int → Bool)
    (s : BoardState) (E : List DrawingElement) :
    (boardReducer isNear s (BoardAction.SET_HISTORY E)).map BoardState.elements =
      some s.elements ∧
    (boardReducer isNear s (BoardAction.SET_HISTORY E)).map BoardState.history =
      some [E] :=
  ⟨rfl, rfl⟩

/-- Setting the position just past the front of a list replaces its last
element. -/
theorem set_length_concat {α : Type} (l : List α) (a b : α) :
    (l ++ [a]).set l.length b = l ++ [b] := by
  induction l with
  | nil => rfl
  | cons x xs ih => simp [ih]

/-- Creation succeeds, with the requested type, for every tool other than
ERASER. -/
theorem createElement_eq_some (index : Nat) (x1 y1 x2 y2 : Int) (tool : ToolItem)
    (stroke : String) (fill : Option String) (size : Int)
    (h : tool ≠ ToolItem.ERASER) :
    createElement index x1 y1 x2 y2 tool stroke fill size =
      some { index := index, type := tool, x1 := x1, y1 := y1, x2 := x2, y2 := y2,
             points := if tool = ToolItem.BRUSH then [⟨x1, y1⟩] else [],
             text := "", stroke := stroke, fill := fill, size := size } := by
  simp [createElement, h]

/-- The shape and brush tools are exactly those that are neither ERASER nor
TEXT. -/
theorem isShapeOrBrush_ne (tool : ToolItem) (h : isShapeOrBrush tool = true) :
    tool ≠ ToolItem.ERASER ∧ tool ≠ ToolItem.TEXT := by
  cases tool <;> simp_all [isShapeOrBrush]

/-- One DRAW_MOVE on a state whose last element has the type of the active
shape or brush tool succeeds and only rewrites that last element, keeping its
type. -/
theorem drawMove_step (isNear : DrawingElement → Int → Int → Bool) (cx cy : Int)
    (atool : ToolItem) (atype : ToolActionType) (front : List DrawingElement)
    (e : DrawingElement) (hist : List (List DrawingElement)) (idx : Nat)
    (cid : String) (lg : Bool)
    (ht : e.type = atool) (hs : isShapeOrBrush atool = true) :
    ∃ e2 : DrawingElement,
      boardReducer isNear ⟨atool, atype, front ++ [e], hist, idx, cid, lg⟩
          (BoardAction.DRAW_MOVE cx cy) =
        some ⟨atool, atype, front ++ [e2], hist, idx, cid, lg⟩ ∧
      e2.type = atool := by
  have hlast : (front ++ [e]).getLast? = some e := List.getLast?_concat front
  have hlen : (front ++ [e]).length - 1 = front.length := by simp
  obtain ⟨ei, ety, ex1, ey1, ex2, ey2, epts, etxt, estr, efl, esz⟩ := e
  subst ht
  cases ety with
  | TEXT => simp [isShapeOrBrush] at hs
  | ERASER => simp [isShapeOrBrush] at hs
  | BRUSH =>
      refine ⟨⟨ei, ToolItem.BRUSH, ex1, ey1, ex2, ey2, epts ++ [⟨cx, cy⟩], etxt, estr, efl, esz⟩, ?_, rfl⟩
      simp only [boardReducer, hlast, hlen, set_length_concat]
  | LINE =>
      have hce : createElement front.length ex1 ey1 cx cy ToolItem.LINE estr efl esz =
          some ⟨front.length, ToolItem.LINE, ex1, ey1, cx, cy, [], "", estr, efl, esz⟩ := rfl
      refine ⟨⟨front.length, ToolItem.LINE, ex1, ey1, cx, cy, [], "", estr, efl, esz⟩, ?_, rfl⟩
      simp only [boardReducer, hlast, hlen, hce, set_length_concat]
  | RECTANGLE =>
      have hce : createElement front.length ex1 ey1 cx cy ToolItem.RECTANGLE estr efl esz =
          some ⟨front.length, ToolItem.RECTANGLE, ex1, ey1, cx, cy, [], "", estr, efl, esz⟩ := rfl
      refine ⟨⟨front.length, ToolItem.RECTANGLE, ex1, ey1, cx, cy, [], "", estr, efl, esz⟩, ?_, rfl⟩
      simp only [boardReducer, hlast, hlen, hce, set_length_concat]
  | CIRCLE =>
      have hce : createElement front.length ex1 ey1 cx cy ToolItem.CIRCLE estr efl esz =
          some ⟨front.length, ToolItem.CIRCLE, ex1, ey1, cx, cy, [], "", estr, efl, esz⟩ := rfl
      refine ⟨⟨front.length, ToolItem.CIRCLE, ex1, ey1, cx, cy, [], "", estr, efl, esz⟩, ?_, rfl⟩
      simp only [boardReducer, hlast, hlen, hce, set_length_concat]
  | ARROW =>
      have hce : createElement front.length ex1 ey1 cx cy ToolItem.ARROW estr efl esz =
          some ⟨front.length, ToolItem.ARROW, ex1, ey1, cx, cy, [], "", estr, efl, esz⟩ := rfl
      refine ⟨⟨front.length, ToolItem.ARROW, ex1, ey1, cx, cy, [], "", estr, efl, esz⟩, ?_, rfl⟩
      simp only [boardReducer, hlast, hlen, hce, set_length_concat]

/-- Applying a concatenation of action lists is applying them in turn. -/
theorem applyActions_append (isNear : DrawingElement → Int → Int → Bool)
    (as bs : List BoardAction) :
    ∀ s : BoardState, applyActions isNear s (as ++ bs) =
      (applyActions isNear s as).bind fun t => applyActions isNear t bs := by
  induction as with
  | nil => intro s; simp [applyActions]
  | cons a rest ih =>
      intro s
      cases h : boardReducer isNear s a with
      | none => simp [applyActions, h]
      | some u => simp [applyActions, h, ih u]

/-- Any run of DRAW_MOVE actions on a state whose last element has the type
of the active shape or brush tool succeeds and only rewrites that last
element, leaving every other field alone. -/
theorem applyMoves_ok (isNear : DrawingElement → Int → Int → Bool)
    (moves : List (Int × Int)) :
    ∀ (atool : ToolItem) (atype : ToolActionType) (front : List DrawingElement)
      (e : DrawingElement) (hist : List (List DrawingElement)) (idx : Nat)
      (cid : String) (lg : Bool),
      e.type = atool → isShapeOrBrush atool = true →
      ∃ (front2 : List DrawingElement) (e2 : DrawingElement),
        applyActions isNear ⟨atool, atype, front ++ [e], hist, idx, cid, lg⟩
            (moves.map fun p => BoardAction.DRAW_MOVE p.1 p.2) =
          some ⟨atool, atype, front2 ++ [e2], hist, idx, cid, lg⟩ ∧
        e2.type = atool := by
  induction moves with
  | nil =>
      intro atool atype front e hist idx cid lg ht _
      exact ⟨front, e, rfl, ht⟩
  | cons p rest ih =>
      intro atool atype front e hist idx cid lg ht hs
      obtain ⟨e2, hstep, ht2⟩ :=
        drawMove_step isNear p.1 p.2 atool atype front e hist idx cid lg ht hs
      obtain ⟨front2, e3, happ, ht3⟩ := ih atool atype front e2 hist idx cid lg ht2 hs
      refine ⟨front2, e3, ?_, ht3⟩
      simp only [List.map_cons, applyActions, hstep]
      exact happ

/-- Reading a concatenation at the length of its front yields the appended
element. -/
theorem get?_concat_self {α : Type} (l : List α) (a : α) :
    (l ++ [a]).get? l.length = some a := by
  induction l with
  | nil => rfl
  | cons x xs ih => simp [ih]

/-- C4 counterexample: with the TEXT tool active (which is not ERASER), the
gesture DRAW_DOWN, one DRAW_MOVE, DRAW_UP fails outright, because DRAW_MOVE
on a TEXT element reaches the unrecognized-type branch and throws; no state
results, so no history entry is appended. -/
theorem c4_counterexample :
    applyActions isNearNone
      { initialBoardState false with activeToolItem := ToolItem.TEXT }
      [BoardAction.DRAW_DOWN 0 0 "black" none 2, BoardAction.DRAW_MOVE 1 1,
        BoardAction.DRAW_UP] = none := rfl

/-- C4 (amended): for every state satisfying the index bound whose active
tool is neither ERASER nor TEXT, every gesture DRAW_DOWN, zero or more
DRAW_MOVE, DRAW_UP succeeds; it advances the cursor by exactly one, produces
the history obtained from truncating at the prior cursor and appending
exactly one new snapshot, and afterwards history at the cursor equals the
live elements. -/
theorem c4_draw_gesture (isNear : DrawingElement → Int → Int → Bool)
    (s : BoardState) (cx cy : Int) (stroke : String) (fill : Option String)
    (size : Int) (moves : List (Int × Int))
    (hTool : isShapeOrBrush s.activeToolItem = true)
    (hIdx : s.index < s.history.length) :
    ∃ t : BoardState,
      applyActions isNear s
          (BoardAction.DRAW_DOWN cx cy stroke fill size ::
            ((moves.map fun p => BoardAction.DRAW_MOVE p.1 p.2) ++
              [BoardAction.DRAW_UP])) = some t ∧
      t.index = s.index + 1 ∧
      t.history = s.history.take (s.index + 1) ++ [t.elements] ∧
      t.history.get? t.index = some t.elements := by
  obtain ⟨atool, atype, elems, hist, idx, cid, lg⟩ := s
  have hIdx2 : idx < hist.length := hIdx
  obtain ⟨hner, hntxt⟩ := isShapeOrBrush_ne atool hTool
  have hce := createElement_eq_some elems.length cx cy cx cy atool stroke fill size hner
  obtain ⟨ne, hce2, hty⟩ : ∃ ne : DrawingElement,
      createElement elems.length cx cy cx cy atool stroke fill size = some ne ∧
      ne.type = atool := ⟨_, hce, rfl⟩
  have hdown : boardReducer isNear ⟨atool, atype, elems, hist, idx, cid, lg⟩
      (BoardAction.DRAW_DOWN cx cy stroke fill size) =
      some ⟨atool, ToolActionType.DRAWING, elems ++ [ne], hist, idx, cid, lg⟩ := by
    simp only [boardReducer, hce2, if_neg hntxt]
  obtain ⟨front2, e2, happ, _⟩ :=
    applyMoves_ok isNear moves atool ToolActionType.DRAWING elems ne
      hist idx cid lg hty hTool
  have hlen : (hist.take (idx + 1)).length = idx + 1 := by
    rw [List.length_take]
    omega
  refine ⟨⟨atool, ToolActionType.DRAWING, front2 ++ [e2],
    hist.take (idx + 1) ++ [front2 ++ [e2]], idx + 1, cid, lg⟩, ?_, rfl, rfl, ?_⟩
  · simp only [applyActions, hdown]
    rw [applyActions_append isNear _ _ _, happ]
    rfl
  · have h2 := get?_concat_self (hist.take (idx + 1)) (front2 ++ [e2])
    rw [hlen] at h2
    exact h2

/-- C4 witness: the amended gesture property instantiated on the initial
state with the brush tool and one move. -/
theorem c4_draw_gesture_witness :
    isShapeOrBrush (initialBoardState false).activeToolItem = true ∧
    (initialBoardState false).index < (initialBoardState false).history.length ∧
    (∃ t : BoardState,
      applyActions isNearNone (initialBoardState false)
          (BoardAction.DRAW_DOWN 0 0 "black" none 2 ::
            (([((1 : Int), (2 : Int))].map fun p => BoardAction.DRAW_MOVE p.1 p.2) ++
              [BoardAction.DRAW_UP])) = some t ∧
      t.index = (initialBoardState false).index + 1 ∧
      t.history = (initialBoardState false).history.take
        ((initialBoardState false).index + 1) ++ [t.elements] ∧
      t.history.get? t.index = some t.elements) :=
  ⟨rfl, by decide,
    c4_draw_gesture isNearNone (initialBoardState false) 0 0 "black" none 2
      [(1, 2)] rfl (by decide)⟩

/-- C5: undo on a state with cursor 0 returns the state unchanged, redo on a
state with cursor history.length - 1 returns the state unchanged, and on a
state with two history entries and cursor 1 a first undo reverts to the first
history entry while a second and third undo change nothing. -/
theorem c5_undo_redo_noop (isNear : DrawingElement → Int → Int → Bool)
    (s : BoardState) :
    (s.index = 0 → boardReducer isNear s BoardAction.UNDO = some s) ∧
    (s.index = s.history.length - 1 →
      boardReducer isNear s BoardAction.REDO = some s) ∧
    (s.history.length = 2 → s.index = 1 →
      ∃ t : BoardState, boardReducer isNear s BoardAction.UNDO = some t ∧
        s.history.get? 0 = some t.elements ∧ t.index = 0 ∧
        boardReducer isNear t BoardAction.UNDO = some t ∧
        applyActions isNear s
          [BoardAction.UNDO, BoardAction.UNDO, BoardAction.UNDO] = some t) := by
  refine ⟨?_, ?_, ?_⟩
  · intro h
    simp [boardReducer, h]
  · intro h
    simp only [boardReducer]
    rw [if_pos (by omega)]
  · intro hlen hidx
    obtain ⟨h0, hh0⟩ : ∃ h0, s.history.get? 0 = some h0 := by
      cases hh : s.history.get? 0 with
      | none =>
          rw [List.get?_eq_none] at hh
          omega
      | some x => exact ⟨x, rfl⟩
    have hh0g : s.history[0]? = some h0 := by
      rw [← List.get?_eq_getElem?]
      exact hh0
    have hu1 : boardReducer isNear s BoardAction.UNDO =
        some { s with elements := h0, index := 0 } := by
      simp only [boardReducer, hidx]
      simp [hh0g]
    have hu2 : boardReducer isNear { s with elements := h0, index := 0 }
        BoardAction.UNDO = some { s with elements := h0, index := 0 } := by
      simp [boardReducer]
    refine ⟨{ s with elements := h0, index := 0 }, hu1, hh0, rfl, hu2, ?_⟩
    simp only [applyActions, hu1, hu2]

/-- C5 witness: the three no-op properties instantiated on the initial state
and on a state with two history entries and cursor 1. -/
theorem c5_undo_redo_noop_witness :
    ((initialBoardState false).index = 0 ∧
      boardReducer isNearNone (initialBoardState false) BoardAction.UNDO =
        some (initialBoardState false)) ∧
    ((initialBoardState false).index =
        (initialBoardState false).history.length - 1 ∧
      boardReducer isNearNone (initialBoardState false) BoardAction.REDO =
        some (initialBoardState false)) ∧
    (twoEntryState.history.length = 2 ∧ twoEntryState.index = 1 ∧
      ∃ t : BoardState,
        boardReducer isNearNone twoEntryState BoardAction.UNDO = some t ∧
        twoEntryState.history.get? 0 = some t.elements ∧ t.index = 0 ∧
        boardReducer isNearNone t BoardAction.UNDO = some t ∧
        applyActions isNearNone twoEntryState
          [BoardAction.UNDO, BoardAction.UNDO, BoardAction.UNDO] = some t) :=
  ⟨⟨rfl, (c5_undo_redo_noop isNearNone (initialBoardState false)).1 rfl⟩,
    ⟨rfl, (c5_undo_redo_noop isNearNone (initialBoardState false)).2.1 rfl⟩,
    ⟨rfl, rfl, (c5_undo_redo_noop isNearNone twoEntryState).2.2 rfl rfl⟩⟩

/-- C10: whenever undo is enabled (cursor positive) or redo is enabled
(cursor below history.length - 1) and the step succeeds, only the elements
and index fields change: the active tool, the action type, the canvas id,
the history, and the login flag are unchanged. -/
theorem c10_undo_redo_frame (isNear : DrawingElement → Int → Int → Bool)
    (s t : BoardState) :
    (0 < s.index → boardReducer isNear s BoardAction.UNDO = some t →
      t.activeToolItem = s.activeToolItem ∧ t.toolActionType = s.toolActionType ∧
      t.canvasId = s.canvasId ∧ t.history = s.history ∧
      t.isUserLoggedIn = s.isUserLoggedIn) ∧
    (s.index < s.history.length - 1 →
      boardReducer isNear s BoardAction.REDO = some t →
      t.activeToolItem = s.activeToolItem ∧ t.toolActionType = s.toolActionType ∧
      t.canvasId = s.canvasId ∧ t.history = s.history ∧
      t.isUserLoggedIn = s.isUserLoggedIn) := by
  constructor
  · intro hpos h
    simp only [boardReducer] at h
    rw [if_neg (by omega)] at h
    cases hh : s.history.get? (s.index - 1) with
    | none => rw [hh] at h; simp at h
    | some prev =>
        rw [hh] at h
        cases h
        exact ⟨rfl, rfl, rfl, rfl, rfl⟩
  · intro hlt h
    simp only [boardReducer] at h
    rw [if_neg (by omega)] at h
    cases hh : s.history.get? (s.index + 1) with
    | none => rw [hh] at h; simp at h
    | some next =>
        rw [hh] at h
        cases h
        exact ⟨rfl, rfl, rfl, rfl, rfl⟩

/-- C10 witness: the frame property instantiated on a two-entry history, once
for undo with cursor 1 and once for redo with cursor 0. -/
theorem c10_undo_redo_frame_witness :
    (0 < twoEntryState.index ∧
      boardReducer isNearNone twoEntryState BoardAction.UNDO =
        some { twoEntryState with elements := [], index := 0 } ∧
      ({ twoEntryState with elements := [], index := 0 } : BoardState).history =
        twoEntryState.history) ∧
    (twoEntryStateAtZero.index < twoEntryStateAtZero.history.length - 1 ∧
      boardReducer isNearNone twoEntryStateAtZero BoardAction.REDO =
        some { twoEntryStateAtZero with elements := [sampleElement], index := 1 } ∧
      ({ twoEntryStateAtZero with elements := [sampleElement], index := 1 } :
          BoardState).history = twoEntryStateAtZero.history) :=
  ⟨⟨by decide, rfl,
      ((c10_undo_redo_frame isNearNone twoEntryState
        { twoEntryState with elements := [], index := 0 }).1
        (by decide) rfl).2.2.2.1⟩,
    ⟨by decide, rfl,
      ((c10_undo_redo_frame isNearNone twoEntryStateAtZero
        { twoEntryStateAtZero with elements := [sampleElement], index := 1 }).2
        (by decide) rfl).2.2.2.1⟩⟩

/-- One undo or redo step keeps the history intact and either keeps the
elements or loads them from some history entry. -/
theorem undoRedo_step (isNear : DrawingElement → Int → Int → Bool)
    (s t : BoardState) (a : BoardAction)
    (ha : isUndoRedoAction a = true) (h : boardReducer isNear s a = some t) :
    t.history = s.history ∧ (t.elements = s.elements ∨ t.elements ∈ s.history) := by
  cases a with
  | UNDO =>
      simp only [boardReducer] at h
      split at h
      · cases h
        exact ⟨rfl, Or.inl rfl⟩
      · split at h
        · exact absurd h (by simp)
        · rename_i prev hh
          cases h
          exact ⟨rfl, Or.inr (List.get?_mem hh)⟩
  | REDO =>
      simp only [boardReducer] at h
      split at h
      · cases h
        exact ⟨rfl, Or.inl rfl⟩
      · split at h
        · exact absurd h (by simp)
        · rename_i next hh
          cases h
          exact ⟨rfl, Or.inr (List.get?_mem hh)⟩
  | CHANGE_TOOL tool => simp [isUndoRedoAction] at ha
  | CHANGE_ACTION_TYPE x => simp [isUndoRedoAction] at ha
  | DRAW_DOWN cx cy st f sz => simp [isUndoRedoAction] at ha
  | DRAW_MOVE cx cy => simp [isUndoRedoAction] at ha
  | DRAW_UP => simp [isUndoRedoAction] at ha
  | ERASE cx cy => simp [isUndoRedoAction] at ha
  | CHANGE_TEXT txt => simp [isUndoRedoAction] at ha
  | SET_INITIAL_ELEMENTS E => simp [isUndoRedoAction] at ha
  | SET_CANVAS_ID cid => simp [isUndoRedoAction] at ha
  | SET_CANVAS_ELEMENTS E => simp [isUndoRedoAction] at ha
  | SET_HISTORY E => simp [isUndoRedoAction] at ha
  | SET_USER_LOGIN_STATUS b => simp [isUndoRedoAction] at ha

/-- Along any sequence of undo and redo actions the history never changes
and the elements are always either the starting elements or an entry of the
starting history. -/
theorem applyUndoRedo_reach (isNear : DrawingElement → Int → Int → Bool)
    (acts : List BoardAction) :
    ∀ s t : BoardState, acts.all isUndoRedoAction = true →
      applyActions isNear s acts = some t →
      t.history = s.history ∧ (t.elements = s.elements ∨ t.elements ∈ s.history) := by
  induction acts with
  | nil =>
      intro s t _ h
      simp only [applyActions] at h
      cases h
      exact ⟨rfl, Or.inl rfl⟩
  | cons a rest ih =>
      intro s t hall h
      simp only [List.all_cons, Bool.and_eq_true] at hall
      simp only [applyActions] at h
      cases hred : boardReducer isNear s a with
      | none => rw [hred] at h; simp at h
      | some u =>
          rw [hred] at h
          obtain ⟨hh1, he1⟩ := undoRedo_step isNear s u a hall.1 hred
          obtain ⟨hh2, he2⟩ := ih u t hall.2 h
          refine ⟨hh2.trans hh1, ?_⟩
          rcases he2 with h2 | h2
          · rw [h2]
            exact he1
          · rw [hh1] at h2
            exact Or.inr h2

/-- C6: every committing action (draw-up, erase, text-commit) that succeeds
replaces the history by its prefix up to the cursor with the new snapshot
appended, advancing the cursor by one, so every entry beyond the pre-action
cursor is discarded; and no sequence of undo and redo actions can ever
change the history or reach elements outside it, so the discarded entries
stay unreachable. -/
theorem c6_commit_discards_redo (isNear : DrawingElement → Int → Int → Bool)
    (s : BoardState) :
    (∀ (a : BoardAction) (t : BoardState), isCommittingAction a = true →
      boardReducer isNear s a = some t →
      t.index = s.index + 1 ∧
      t.history = s.history.take (s.index + 1) ++ [t.elements]) ∧
    (∀ (acts : List BoardAction) (u : BoardState),
      acts.all isUndoRedoAction = true → applyActions isNear s acts = some u →
      u.history = s.history ∧
      (u.elements = s.elements ∨ u.elements ∈ s.history)) := by
  constructor
  · intro a t ha h
    cases a with
    | DRAW_UP =>
        simp only [boardReducer] at h
        cases h
        exact ⟨rfl, rfl⟩
    | ERASE cx cy =>
        simp only [boardReducer] at h
        cases h
        exact ⟨rfl, rfl⟩
    | CHANGE_TEXT txt =>
        simp only [boardReducer] at h
        split at h
        · exact absurd h (by simp)
        · cases h
          exact ⟨rfl, rfl⟩
    | CHANGE_TOOL tool => simp [isCommittingAction] at ha
    | CHANGE_ACTION_TYPE x => simp [isCommittingAction] at ha
    | DRAW_DOWN cx cy st f sz => simp [isCommittingAction] at ha
    | DRAW_MOVE cx cy => simp [isCommittingAction] at ha
    | UNDO => simp [isCommittingAction] at ha
    | REDO => simp [isCommittingAction] at ha
    | SET_INITIAL_ELEMENTS E => simp [isCommittingAction] at ha
    | SET_CANVAS_ID cid => simp [isCommittingAction] at ha
    | SET_CANVAS_ELEMENTS E => simp [isCommittingAction] at ha
    | SET_HISTORY E => simp [isCommittingAction] at ha
    | SET_USER_LOGIN_STATUS b => simp [isCommittingAction] at ha
  · intro acts u hall h
    exact applyUndoRedo_reach isNear acts s u hall h

/-- C6 witness: the committing part instantiated on a DRAW_UP from the
initial state, and the reachability part on a single undo. -/
theorem c6_commit_discards_redo_witness :
    (isCommittingAction BoardAction.DRAW_UP = true ∧
      boardReducer isNearNone (initialBoardState false) BoardAction.DRAW_UP =
        some drawUpState ∧
      drawUpState.index = (initialBoardState false).index + 1 ∧
      drawUpState.history =
        (initialBoardState false).history.take
          ((initialBoardState false).index + 1) ++ [drawUpState.elements]) ∧
    ([BoardAction.UNDO].all isUndoRedoAction = true ∧
      applyActions isNearNone (initialBoardState false) [BoardAction.UNDO] =
        some (initialBoardState false) ∧
      (initialBoardState false).history = (initialBoardState false).history ∧
      ((initialBoardState false).elements = (initialBoardState false).elements ∨
        (initialBoardState false).elements ∈ (initialBoardState false).history)) :=
  ⟨⟨rfl, rfl,
      (c6_commit_discards_redo isNearNone (initialBoardState false)).1
        BoardAction.DRAW_UP drawUpState rfl rfl⟩,
    ⟨rfl, rfl,
      (c6_commit_discards_redo isNearNone (initialBoardState false)).2
        [BoardAction.UNDO] (initialBoardState false) rfl rfl⟩⟩

/-- C7: erasing at a point always succeeds; the surviving elements are
exactly those the hit test does not match, in their original order, and a
new history entry holding them is appended after truncation at the cursor,
with the cursor advanced by one, whether or not anything was removed. -/
theorem c7_erase_filters_and_commits (isNear : DrawingElement → Int → Int → Bool)
    (s : BoardState) (cx cy : Int) :
    boardReducer isNear s (BoardAction.ERASE cx cy) =
      some { s with
        elements := s.elements.filter fun e => ! isNear e cx cy
        history := s.history.take (s.index + 1) ++
          [s.elements.filter fun e => ! isNear e cx cy]
        index := s.index + 1 } := rfl

/-- A single client step never turns the authorization flag back on. -/
theorem clientStep_preserves_unauthorized
    (isNear : DrawingElement → Int → Int → Bool)
    (toolbox : ToolItem → ToolboxEntry) (s t : ClientState)
    (out : List OutboundMessage) (e : ClientEvent)
    (hA : s.isAuthorized = false)
    (h : clientStep isNear toolbox s e = some (t, out)) :
    t.isAuthorized = false := by
  cases e with
  | receiveDrawingUpdate E =>
      simp only [clientStep, boardReducer] at h
      cases h
      exact hA
  | loadCanvas E =>
      simp only [clientStep, boardReducer] at h
      cases h
      exact hA
  | unauthorized m =>
      simp only [clientStep] at h
      cases h
      rfl
  | mouseDown cx cy =>
      simp only [clientStep, hA] at h
      cases h
      exact hA
  | mouseMove cx cy =>
      simp only [clientStep, hA] at h
      cases h
      exact hA
  | mouseUp =>
      simp only [clientStep, hA] at h
      cases h
      exact hA

/-- Along any run of client events, once authorization is lost it is never
regained. -/
theorem runClient_preserves_unauthorized
    (isNear : DrawingElement → Int → Int → Bool)
    (toolbox : ToolItem → ToolboxEntry) (events : List ClientEvent) :
    ∀ (s t : ClientState) (out : List OutboundMessage),
      s.isAuthorized = false →
      runClient isNear toolbox s events = some (t, out) →
      t.isAuthorized = false := by
  induction events with
  | nil =>
      intro s t out hA h
      simp only [runClient] at h
      cases h
      exact hA
  | cons e rest ih =>
      intro s t out hA h
      cases hstep : clientStep isNear toolbox s e with
      | none =>
          simp only [runClient, hstep] at h
          exact absurd h (by simp)
      | some p =>
          obtain ⟨u, out1⟩ := p
          cases hrun : runClient isNear toolbox u rest with
          | none =>
              simp only [runClient, hstep, hrun] at h
              exact absurd h (by simp)
          | some q =>
              obtain ⟨v, out2⟩ := q
              simp only [runClient, hstep, hrun] at h
              injection h with h2
              injection h2 with ha hb
              subst ha
              exact ih u v out2
                (clientStep_preserves_unauthorized isNear toolbox s u out1 e hA hstep)
                hrun

/-- C8: once the client is unauthorized, it stays unauthorized through every
further run of events; every local mouse event is rejected with the state
unchanged and nothing emitted; and inbound snapshots are still admitted into
the board elements. -/
theorem c8_unauthorized_terminal (isNear : DrawingElement → Int → Int → Bool)
    (toolbox : ToolItem → ToolboxEntry) (s : ClientState)
    (hA : s.isAuthorized = false) :
    (∀ (events : List ClientEvent) (t : ClientState)
        (out : List OutboundMessage),
      runClient isNear toolbox s events = some (t, out) →
      t.isAuthorized = false) ∧
    (∀ cx cy : Int, clientStep isNear toolbox s (ClientEvent.mouseDown cx cy) =
      some (s, [])) ∧
    (∀ cx cy : Int, clientStep isNear toolbox s (ClientEvent.mouseMove cx cy) =
      some (s, [])) ∧
    clientStep isNear toolbox s ClientEvent.mouseUp = some (s, []) ∧
    (∀ E : List DrawingElement,
      clientStep isNear toolbox s (ClientEvent.receiveDrawingUpdate E) =
        some ({ s with board := { s.board with elements := E } }, [])) ∧
    (∀ E : List DrawingElement,
      clientStep isNear toolbox s (ClientEvent.loadCanvas E) =
        some ({ s with board := { s.board with elements := E } }, [])) := by
  refine ⟨fun events t out h =>
    runClient_preserves_unauthorized isNear toolbox events s t out hA h,
    ?_, ?_, ?_, fun E => rfl, fun E => rfl⟩
  · intro cx cy
    simp [clientStep, hA]
  · intro cx cy
    simp [clientStep, hA]
  · simp [clientStep, hA]

/-- C8 witness: the degraded mode instantiated on a concrete unauthorized
client with a mouse down at (1, 2), a run of one mouse event, and an inbound
snapshot. -/
theorem c8_unauthorized_terminal_witness :
    unauthorizedClient.isAuthorized = false ∧
    clientStep isNearNone toolboxDefault unauthorizedClient
      (ClientEvent.mouseDown 1 2) = some (unauthorizedClient, []) ∧
    clientStep isNearNone toolboxDefault unauthorizedClient
      (ClientEvent.receiveDrawingUpdate [sampleElement]) =
      some ({ unauthorizedClient with
        board := { unauthorizedClient.board with elements := [sampleElement] } },
        []) :=
  ⟨rfl,
    (c8_unauthorized_terminal isNearNone toolboxDefault unauthorizedClient
      rfl).2.1 1 2,
    (c8_unauthorized_terminal isNearNone toolboxDefault unauthorizedClient
      rfl).2.2.2.2.1 [sampleElement]⟩

/-- C9 counterexample: an authorized client mid-gesture processes a mouse
move; the step dispatches the DRAW_MOVE (the brush element gains a point) but
the single emitted drawingUpdate still carries the one-point element list
captured at the last render, which differs from the elements after the
action was applied. -/
theorem c9_counterexample :
    clientStep isNearNone toolboxDefault drawingClient
      (ClientEvent.mouseMove 5 5) =
      some (c9AfterState,
        [OutboundMessage.drawingUpdate "abc" [sampleElement]]) ∧
    c9AfterState.board.elements ≠ [sampleElement] := by
  constructor
  · rfl
  · decide

/-- C9 (amended): on every authorized pointer move and pointer up the client
emits exactly one drawingUpdate, tagged with the canvas id, whose payload is
the entire elements collection as it stood at the last render, that is
before the DRAW_MOVE or DRAW_UP dispatched by this very event is applied. -/
theorem c9_broadcast_full_state (isNear : DrawingElement → Int → Int → Bool)
    (toolbox : ToolItem → ToolboxEntry) (s : ClientState) (cx cy : Int)
    (t : ClientState) (out : List OutboundMessage)
    (hA : s.isAuthorized = true) :
    (clientStep isNear toolbox s (ClientEvent.mouseMove cx cy) = some (t, out) →
      out = [OutboundMessage.drawingUpdate s.id s.board.elements]) ∧
    (clientStep isNear toolbox s ClientEvent.mouseUp = some (t, out) →
      out = [OutboundMessage.drawingUpdate s.id s.board.elements]) := by
  constructor
  · intro h
    cases hb : boardMouseMoveHandler isNear s.board cx cy with
    | none => simp [clientStep, hA, hb] at h
    | some b =>
        simp [clientStep, hA, hb] at h
        exact h.2.symm
  · intro h
    cases hb : boardMouseUpHandler isNear s.board with
    | none => simp [clientStep, hA, hb] at h
    | some b =>
        simp [clientStep, hA, hb] at h
        exact h.2.symm

/-- C9 witness: the amended broadcast property instantiated on the drawing
client processing a mouse move to (5, 5). -/
theorem c9_broadcast_full_state_witness :
    drawingClient.isAuthorized = true ∧
    clientStep isNearNone toolboxDefault drawingClient
      (ClientEvent.mouseMove 5 5) =
      some (c9AfterState,
        [OutboundMessage.drawingUpdate "abc" [sampleElement]]) ∧
    [OutboundMessage.drawingUpdate "abc" [sampleElement]] =
      [OutboundMessage.drawingUpdate drawingClient.id
        drawingClient.board.elements] :=
  ⟨rfl, rfl,
    (c9_broadcast_full_state isNearNone toolboxDefault drawingClient 5 5
      c9AfterState [OutboundMessage.drawingUpdate "abc" [sampleElement]]
      rfl).1 rfl⟩
